import Mathlib

/-!
Verification of the clixon query pipeline specification against the source.

The development shallowly embeds the parts of the repository that the claims
touch:
  * the XML node model and the node-test functions of
    src/lib/src/clixon_xpath_eval.c (nodetest_eval_node, nodetest_eval,
    nodetest_recursive),
  * the XPath evaluation context, the numeric operator xp_numop, the
    predicate rule xp_eval_predicate, and the main evaluator xp_eval,
  * the with-defaults processor, filter_xpath_again and the pagination
    planner of src/apps/backend/backend_get.c.

XML nodes are modelled as trees; a node inside a document is addressed by
its path, the list of child indexes from the document root, which makes the
parent pointers of the C data structure (a lookup, never ownership)
computable. C doubles are modelled as Option Rat, with none playing the
role of NaN; casts to int truncate toward zero as in C.
-/

namespace Clixon

/-- Node kind tag of a cxobj: element, attribute or body (text), mirroring
CX_ELMNT, CX_ATTR, CX_BODY of the C data model. -/
inductive NType where
  | elmnt
  | attr
  | body
deriving DecidableEq, Repr

/-- An XML node (cxobj).  Fields mirror the C object:
name, namespace prefix, node kind, value (of a body or attribute node),
the namespace URI that the node's prefix resolves to in the document
(the result of the external xml2ns, which walks the xmlns declarations in
scope, nearest wins), the MARK and DEFAULT scratch flags, the default
value recorded at the node's schema spec (the composite of
xml_spec / yang_cv_get / cv2str_dup: none when the node has no spec or the
spec has no named default), and the ordered children. -/
inductive Cxobj where
  | mk (name : String) (pfx : Option String) (ntype : NType)
       (value : Option String) (nsuri : Option String)
       (mark : Bool) (dflt : Bool) (specDefault : Option String)
       (children : List Cxobj)

namespace Cxobj

def name : Cxobj → String
  | .mk n _ _ _ _ _ _ _ _ => n

def pfx : Cxobj → Option String
  | .mk _ p _ _ _ _ _ _ _ => p

def ntype : Cxobj → NType
  | .mk _ _ t _ _ _ _ _ _ => t

def value : Cxobj → Option String
  | .mk _ _ _ v _ _ _ _ _ => v

def nsuri : Cxobj → Option String
  | .mk _ _ _ _ u _ _ _ _ => u

def mark : Cxobj → Bool
  | .mk _ _ _ _ _ m _ _ _ => m

def dflt : Cxobj → Bool
  | .mk _ _ _ _ _ _ d _ _ => d

def specDefault : Cxobj → Option String
  | .mk _ _ _ _ _ _ _ s _ => s

def children : Cxobj → List Cxobj
  | .mk _ _ _ _ _ _ _ _ cs => cs

end Cxobj

/-- xml_body: the string value of a node, i.e. the value of its first
body-type child (body children are the text content in the C model). -/
def xml_body (x : Cxobj) : Option String :=
  match x.children.find? (fun c => c.ntype = NType.body) with
  | some c => c.value
  | none => none

/-- xml_find: first child (of any type) with the given name. -/
def xml_find (x : Cxobj) (nm : String) : Option Cxobj :=
  x.children.find? (fun c => c.name = nm)

/-- A namespace context (cvec nsc): an ordered sequence of
(prefix, URI) pairs; the prefix none denotes the default namespace. -/
abbrev Nsc := List (Option String × String)

/-- xml_nsctx_get: look a prefix up in a namespace context, first
(nearest) binding wins. -/
def xml_nsctx_get (nsc : Nsc) (p : Option String) : Option String :=
  match List.find? (fun b => b.1 = p) nsc with
  | some b => some b.2
  | none => none

/-- nodetest_eval_node of clixon_xpath_eval.c: match element x against the
node test NodeName(px, lx).  The wildcard matches first; then the local
names must be equal; then, with a namespace context (strict mode), the URI
that x's prefix resolves to in the document (nsxml, supplied by the
external xml2ns and carried on the node) is compared with the URI that px
resolves to in nsc, both unresolved counting as a match; without a
namespace context (lenient mode) the raw prefixes are compared, both
absent counting as a match. -/
def nodetest_eval_node (x : Cxobj) (px : Option String) (lx : String)
    (nsc : Option Nsc) : Bool :=
  if lx = "*" then true
  else
    let nsxml := x.nsuri
    if x.name ≠ lx then false
    else
      match nsc with
      | some nsc =>
        let nsxpath := xml_nsctx_get nsc px
        match nsxml, nsxpath with
        | some u1, some u2 => u1 = u2
        | none, none => true
        | _, _ => false
      | none =>
        match x.pfx, px with
        | none, none => true
        | some _, none => false
        | none, some _ => false
        | some p1, some p2 => p1 = p2

/-- The node test argument of a step: either a QName test (XP_NODE, with
prefix and local name) or a node-type function test (XP_NODE_FN, with the
function name, such as node, text or current). -/
inductive Nodetest where
  | node (px : Option String) (lx : String)
  | nodeFn (fn : String)
deriving DecidableEq, Repr

/-- nodetest_eval of clixon_xpath_eval.c: dispatch on the node-test kind.
For XP_NODE_FN the C code returns a match when the function is node, and
also when it is text, for any node whatsoever: the node kind of x is not
inspected.  No match is the default. -/
def nodetest_eval (x : Cxobj) (xs : Nodetest) (nsc : Option Nsc) : Bool :=
  match xs with
  | .node px lx => nodetest_eval_node x px lx nsc
  | .nodeFn fn =>
    if fn = "node" then true
    else if fn = "text" then true
    else false

/-- A path addressing a node inside a fixed document: the list of child
indexes from the document root.  The empty path is the root itself; the
parent of a node is obtained by dropping the last index (the parent
back-reference of the C model). -/
abbrev Path := List Nat

/-- The subtree of the document at a path, if the path is valid. -/
def subtreeAt : Cxobj → Path → Option Cxobj
  | t, [] => some t
  | t, i :: p =>
    match t.children.get? i with
    | some c => subtreeAt c p
    | none => none

/-- A placeholder node used when a (never occurring) invalid path is
dereferenced. -/
def dummyNode : Cxobj := .mk "" none .elmnt none none false false none []

/-- Dereference a path in the document. -/
def nodeAt (doc : Cxobj) (p : Path) : Cxobj :=
  match subtreeAt doc p with
  | some x => x
  | none => dummyNode

/-- Paths of the element children of the node at path p, in order:
the iteration xml_child_each(xv, x, CX_ELMNT). -/
def childElemPaths (doc : Cxobj) (p : Path) : List Path :=
  ((nodeAt doc p).children.enum.filter
    (fun ic => ic.2.ntype = NType.elmnt)).map (fun ic => p ++ [ic.1])

/-- The typed result tag of an evaluation context (enum xp_type). -/
inductive XType where
  | nodeset
  | xbool
  | number
  | xstring
deriving DecidableEq, Repr

/-- A C double is modelled as Option Rat: none plays the role of NaN. -/
abbrev XNum := Option ℚ

/-- The (int) cast of a C double: truncation toward zero. -/
def ratTrunc (q : ℚ) : Int := q.num.tdiv (q.den : Int)

/-- XPath evaluation context (struct xp_ctx): typed result, current node,
initial node, node-set, descendant flag and the three scalar payloads. -/
structure XpCtx where
  ctype : XType
  node : Path
  initial : Path
  nodeset : List Path
  descendant : Bool
  num : XNum
  xbool : Bool
  str : Option String
deriving DecidableEq, Repr

/-- A freshly allocated, zeroed context (the malloc/memset pattern of the C
code) with a given type, initial node and node-set. -/
def mkCtx (t : XType) (ini : Path) (ns : List Path) : XpCtx :=
  { ctype := t, node := [], initial := ini, nodeset := ns,
    descendant := false, num := some 0, xbool := false, str := none }

/-- Modelled from the spec: to_number on strings (clixon_xpath_ctx.c is not
under src/).  The string is parsed as a decimal number, NaN (none) on
failure; an optional minus sign, digits and an optional fraction are
accepted. -/
def parseNum (s : String) : XNum :=
  let core (t : List Char) : XNum :=
    match t.span Char.isDigit with
    | (ds, rest) =>
      if ds = [] then none
      else
        let ip : ℚ := (ds.foldl (fun a c => a * 10 + (c.toNat - 48)) 0 : ℕ)
        match rest with
        | [] => some ip
        | '.' :: fs =>
          if fs ≠ [] ∧ fs.all Char.isDigit then
            some (ip + ((fs.foldl (fun a c => a * 10 + (c.toNat - 48)) 0 : ℕ) : ℚ)
                        / ((10 : ℚ) ^ fs.length))
          else none
        | _ => none
  match s.toList with
  | '-' :: t => (core t).map (fun q => -q)
  | t => core t

/-- Modelled from the spec: to_boolean of 4.C (clixon_xpath_ctx.c is not
under src/): node-set to non-empty; string to non-empty; number to not 0
and not NaN; booleans are themselves. -/
def ctx2boolean (xc : XpCtx) : Bool :=
  match xc.ctype with
  | .nodeset => xc.nodeset ≠ []
  | .number =>
    match xc.num with
    | some q => q ≠ 0
    | none => false
  | .xbool => xc.xbool
  | .xstring =>
    match xc.str with
    | some s => s ≠ ""
    | none => false

/-- Modelled from the spec: to_number of 4.C (clixon_xpath_ctx.c is not
under src/): numbers are themselves; a string is parsed, NaN on failure;
a node-set is converted through its first node's body; a boolean counts
as 0 or 1 (W3C XPath 1.0 number()). -/
def ctx2number (doc : Cxobj) (xc : XpCtx) : XNum :=
  match xc.ctype with
  | .number => xc.num
  | .xstring =>
    match xc.str with
    | some s => parseNum s
    | none => none
  | .nodeset =>
    match xc.nodeset with
    | [] => none
    | p :: _ =>
      match xml_body (nodeAt doc p) with
      | some s => parseNum s
      | none => none
  | .xbool => some (if xc.xbool then 1 else 0)

/-- The XPath operators (enum xp_op); only the ones the embedded fragment
uses are listed, plus an eq representative of the relational family. -/
inductive XpOp where
  | add
  | sub
  | mult
  | div
  | mod
  | eq
deriving DecidableEq, Repr

/-- xp_numop of clixon_xpath_eval.c: the numeric operators convert their
operands to numbers; if either is NaN the result is NaN; otherwise MOD is
the C integer remainder of the two doubles cast to int, and the other four
are computed on the doubles.  A non-arithmetic operator is the error
branch of the C switch and yields NaN here.  The result context carries
xc1's initial node, as in C. -/
def xp_numop (doc : Cxobj) (xc1 xc2 : XpCtx) (op : XpOp) : XpCtx :=
  let n1 := ctx2number doc xc1
  let n2 := ctx2number doc xc2
  let r : XNum :=
    match n1, n2 with
    | some a, some b =>
      match op with
      | .div => some (a / b)
      | .mod => some (((ratTrunc a).tmod (ratTrunc b) : Int) : ℚ)
      | .add => some (a + b)
      | .mult => some (a * b)
      | .sub => some (a - b)
      | .eq => none
    | _, _ => none
  { mkCtx XType.number xc1.initial [] with num := r }

/-- The axis discriminant of a step (A_CHILD, A_DESCENDANT, ...).  Axes
whose case in xp_eval_step is an empty stub are grouped under stub. -/
inductive Axis where
  | child
  | descendant
  | descendantOrSelf
  | parent
  | stub
deriving DecidableEq, Repr

/-- The XPath syntax tree fragment the claims exercise, one constructor per
xpath_tree node kind with the children (xs_c0, xs_c1) of the C structure:
absolute paths (with the // flag), relative location paths, steps (axis,
node test and continuation), predicate chains, numeric and string literals
and arithmetic expressions. -/
inductive XpTree where
  | abspath (dos : Bool) (c0 : Option XpTree)
  | rellocpath (dos : Bool) (c0 : XpTree) (c1 : Option XpTree)
  | step (ax : Axis) (nt : Nodetest) (c1 : Option XpTree)
  | pred (c0 : Option XpTree) (c1 : Option XpTree)
  | primeNr (d : XNum)
  | primeStr (s : Option String)
  | addE (op : XpOp) (c0 : XpTree) (c1 : XpTree)

mutual
/-- nodetest_recursive of clixon_xpath_eval.c with node_type CX_ELMNT and
flags 0: for each element child of the node, append it when the node test
matches, then descend into it; non-element children are not enumerated.
Nodes are returned as paths relative to the document. -/
def nodetest_recursive (nt : Nodetest) (nsc : Option Nsc) :
    Cxobj → Path → List Path
  | .mk _ _ _ _ _ _ _ _ cs, p => ntrChildren nt nsc cs p 0

/-- The child iteration of nodetest_recursive, carrying the index of the
next child. -/
def ntrChildren (nt : Nodetest) (nsc : Option Nsc) :
    List Cxobj → Path → Nat → List Path
  | [], _, _ => []
  | c :: cs, p, i =>
    (if c.ntype = NType.elmnt then
      (if nodetest_eval c nt nsc then [p ++ [i]] else []) ++
        nodetest_recursive nt nsc c (p ++ [i])
     else []) ++ ntrChildren nt nsc cs p (i + 1)
end

/-- The while loop of the XP_ABSPATH pre-action in xp_eval: climb parent
links until a node with no parent is reached. -/
def climbRoot (p : Path) : Path :=
  match p with
  | [] => []
  | a :: q => climbRoot ((a :: q).dropLast)
termination_by p.length
decreasing_by simp [List.length_dropLast]

/-- The XP_ABSPATH pre-action of xp_eval: reposition the context node to
its root ancestor, make the node-set that single node (size 1), and set
the descendant flag when the absolute path begins with //. -/
def abspath_pre (xc : XpCtx) (dos : Bool) : XpCtx :=
  let x := climbRoot xc.node
  { xc with
      node := x
      nodeset := [x]
      descendant := if dos then true else xc.descendant }

mutual
/-- xp_eval of clixon_xpath_eval.c on the embedded fragment.  The
XP_ABSPATH case performs the pre-action and then either evaluates the tail
or, for a bare /, returns the element children of the (root) context node;
XP_RELLOCPATH sets the descendant flag on the incoming context when its
separator is // (the pre-action) and feeds the first part's result,
unmodified, to the rest: the mid-action descendant store writes the
incoming context while the continuation is evaluated with xr0, so that
store has no effect on the result; steps and predicates dispatch to
their helpers; literals build fresh typed contexts; XP_ADD combines the
two children with xp_numop. -/
def xp_eval (doc : Cxobj) (xc : XpCtx) (xs : XpTree) (nsc : Option Nsc) :
    XpCtx :=
  match xs with
  | .abspath dos c0 =>
    let xca := abspath_pre xc dos
    match c0 with
    | some t0 => xp_eval doc xca t0 nsc
    | none => mkCtx XType.nodeset xca.initial (childElemPaths doc xca.node)
  | .rellocpath dos c0 c1 =>
    let xcp := if dos then { xc with descendant := true } else xc
    let xr0 := xp_eval doc xcp c0 nsc
    match c1 with
    | some t1 => xp_eval doc xr0 t1 nsc
    | none => xr0
  | .step ax nt c1 => xp_eval_step doc xc ax nt c1 nsc
  | .pred c0 c1 => xp_eval_predicate doc xc c0 c1 nsc
  | .primeNr d => { mkCtx XType.number xc.initial [] with num := d }
  | .primeStr s => { mkCtx XType.xstring xc.initial [] with str := s }
  | .addE op a b =>
    let xr0 := xp_eval doc xc a nsc
    let xr1 := xp_eval doc xc b nsc
    xp_numop doc xr0 xr1 op
termination_by (sizeOf xs, 1, 0)

/-- xp_eval_step of clixon_xpath_eval.c: CHILD with the descendant flag
set collects matching descendants with nodetest_recursive and clears the
flag; CHILD otherwise takes the initial node for a leading current() and
else the matching element children of each node in the set; DESCENDANT
and DESCENDANT_OR_SELF use nodetest_recursive; PARENT replaces each node
by its parent when it has one; the remaining axes are stubs that leave
the context unchanged.  The continuation xs_c1, when present, is then
evaluated on the new context. -/
def xp_eval_step (doc : Cxobj) (xc : XpCtx) (ax : Axis) (nt : Nodetest)
    (c1 : Option XpTree) (nsc : Option Nsc) : XpCtx :=
  let xcn : XpCtx :=
    match ax with
    | .child =>
      if xc.descendant then
        let vec := xc.nodeset.flatMap
          (fun p => nodetest_recursive nt nsc (nodeAt doc p) p)
        { xc with nodeset := vec, descendant := false }
      else
        let vec :=
          if nt = Nodetest.nodeFn "current" then [xc.initial]
          else xc.nodeset.flatMap (fun p =>
            (childElemPaths doc p).filter
              (fun q => nodetest_eval (nodeAt doc q) nt nsc))
        { xc with nodeset := vec }
    | .descendant | .descendantOrSelf =>
      let vec := xc.nodeset.flatMap
        (fun p => nodetest_recursive nt nsc (nodeAt doc p) p)
      { xc with nodeset := vec }
    | .parent =>
      { xc with
          nodeset := xc.nodeset.filterMap
            (fun p => if p = [] then none else some p.dropLast) }
    | .stub => xc
  match c1 with
  | some t1 => xp_eval doc xcn t1 nsc
  | none => xcn
termination_by (sizeOf c1, 0, 0)

/-- xp_eval_predicate of clixon_xpath_eval.c: evaluate the earlier
predicates xs_c0 (or duplicate the incoming context when there are none);
when a predicate expression xs_c1 is present, filter the resulting
node-set through predLoop into a fresh node-set context carrying the
incoming context's node and initial node. -/
def xp_eval_predicate (doc : Cxobj) (xc : XpCtx) (c0 c1 : Option XpTree)
    (nsc : Option Nsc) : XpCtx :=
  let xr0 :=
    match c0 with
    | none => xc
    | some t0 => xp_eval doc xc t0 nsc
  match c1 with
  | none => xr0
  | some e =>
    let kept := predLoop doc xc e nsc 0 xr0.nodeset
    { mkCtx XType.nodeset xc.initial kept with node := xc.node }
termination_by (sizeOf c0 + sizeOf c1, 0, 0)

/-- The candidate loop of xp_eval_predicate: the predicate expression is
evaluated with each candidate as the single-element context (a fresh
context whose node-set is exactly that candidate), in source position
order, i carrying the 0-based position.  A number result keeps the
candidate iff its (int) cast equals i; any other result is coerced to
boolean. -/
def predLoop (doc : Cxobj) (xc : XpCtx) (e : XpTree) (nsc : Option Nsc)
    (i : Nat) (l : List Path) : List Path :=
  match l with
  | [] => []
  | x :: xs =>
    let xcc : XpCtx := { mkCtx XType.nodeset xc.initial [x] with node := x }
    let xrc := xp_eval doc xcc e nsc
    let keep :=
      if xrc.ctype = XType.number then
        match xrc.num with
        | some q => ratTrunc q = (i : Int)
        | none => false
      else ctx2boolean xrc
    (if keep then [x] else []) ++ predLoop doc xc e nsc (i + 1) xs
termination_by (sizeOf e, 2, l.length)
end

/-- Evaluate an XPath over a document: the entry context of the xp_eval
family has the given node as current and initial node and as the single
member of the node-set; the resulting node-set is returned. -/
def xpath_eval_top (doc : Cxobj) (xs : XpTree) (nsc : Option Nsc) :
    List Path :=
  (xp_eval doc { mkCtx XType.nodeset [] [[]] with node := [] } xs nsc).nodeset

mutual
/-- Modelled from the spec (4.E reset_flag; xml_apply with xml_flag_reset
is not under src/): clear the MARK flag across the subtree. -/
def resetMark : Cxobj → Cxobj
  | .mk n p t v u _ d s cs => .mk n p t v u false d s (resetMarkL cs)

/-- resetMark on a child list. -/
def resetMarkL : List Cxobj → List Cxobj
  | [] => []
  | c :: cs => resetMark c :: resetMarkL cs
end

mutual
/-- Modelled from the spec (4.E / 4.F; xml_tree_prune_flags is not under
src/): drop every node below the root whose flags satisfy the test,
together with its subtree; the root itself is kept. -/
def pruneFlags (test : Cxobj → Bool) : Cxobj → Cxobj
  | .mk n p t v u m d s cs => .mk n p t v u m d s (pruneFlagsL test cs)

/-- pruneFlags on a child list. -/
def pruneFlagsL (test : Cxobj → Bool) : List Cxobj → List Cxobj
  | [] => []
  | c :: cs =>
    (if test c then [] else [pruneFlags test c]) ++ pruneFlagsL test cs
end

/-- xml_flag_default_value of backend_get.c, as the condition under which
the flag ends up set: the node has a body, the node has a schema spec
whose default has a name and a string value, and the body equals that
value; on every early exit the flag stays reset. -/
def flag_default_value (x : Cxobj) : Bool :=
  match xml_body x with
  | none => false
  | some xv =>
    match x.specDefault with
    | some yv => xv = yv
    | none => false

mutual
/-- The xml_apply of xml_flag_default_value over CX_ELMNT in
with_defaults (xml_apply itself is not under src/ and is modelled from
the spec as application across the subtree): every element's MARK flag
becomes exactly the flag_default_value condition; other nodes keep their
flags. -/
def applyFlagDefault (x : Cxobj) : Cxobj :=
  match x with
  | .mk n p t v u m d s cs =>
    .mk n p t v u
      (if t = NType.elmnt then flag_default_value x else m)
      d s (applyFlagDefaultL cs)

/-- applyFlagDefault on a child list. -/
def applyFlagDefaultL : List Cxobj → List Cxobj
  | [] => []
  | c :: cs => applyFlagDefault c :: applyFlagDefaultL cs
end

mutual
/-- The xml_apply of xml_non_config_data in the explicit mode
(xml_non_config_data is not under src/): mark every element that the
external config classification reports as state data.  The classification
is passed in as a parameter. -/
def applyMarkNonconfig (nc : Cxobj → Bool) (x : Cxobj) : Cxobj :=
  match x with
  | .mk n p t v u m d s cs =>
    .mk n p t v u (if t = NType.elmnt then m || nc x else m) d s
      (applyMarkNonconfigL nc cs)

/-- applyMarkNonconfig on a child list. -/
def applyMarkNonconfigL (nc : Cxobj → Bool) : List Cxobj → List Cxobj
  | [] => []
  | c :: cs => applyMarkNonconfig nc c :: applyMarkNonconfigL nc cs
end

/-- The wd:default attribute that xml_add_default_tag of backend_get.c
creates: an attribute child named default with prefix wd and value
true. -/
def wd_default_attr : Cxobj :=
  .mk "default" (some "wd") NType.attr (some "true") none false false none []

mutual
/-- The xml_apply of xml_add_default_tag over CX_ELMNT in the
report-all-tagged mode: every element carrying the DEFAULT or MARK flag
gets the wd:default attribute appended to its children. -/
def applyAddDefaultTag (x : Cxobj) : Cxobj :=
  match x with
  | .mk n p t v u m d s cs =>
    let cs1 := applyAddDefaultTagL cs
    if t = NType.elmnt ∧ (m || d) = true then
      .mk n p t v u m d s (cs1 ++ [wd_default_attr])
    else .mk n p t v u m d s cs1

/-- applyAddDefaultTag on a child list. -/
def applyAddDefaultTagL : List Cxobj → List Cxobj
  | [] => []
  | c :: cs => applyAddDefaultTag c :: applyAddDefaultTagL cs
end

/-- xmlns_set of the report-all-tagged mode: declare the wd prefix for the
RFC 6243 namespace on the root (an xmlns:wd attribute child). -/
def xmlns_set_wd (x : Cxobj) : Cxobj :=
  match x with
  | .mk n p t v u m d s cs =>
    .mk n p t v u m d s
      (cs ++ [.mk "wd" (some "xmlns") NType.attr
                (some "urn:ietf:params:xml:ns:netconf:default:1.0") none
                false false none []])

/-- The trim branch of with_defaults (backend_get.c lines 507-519): first
prune every node flagged DEFAULT, then set the MARK flag on nodes whose
body equals the schema default and prune the marked nodes. -/
def trimMode (xret : Cxobj) : Cxobj :=
  pruneFlags (fun c => c.mark)
    (applyFlagDefault (pruneFlags (fun c => c.dflt) xret))

/-- The explicit branch of with_defaults: clear MARK, mark state (non
config) nodes, then prune nodes that are DEFAULT and not MARK. -/
def explicitMode (nc : Cxobj → Bool) (xret : Cxobj) : Cxobj :=
  pruneFlags (fun c => c.dflt && !c.mark)
    (applyMarkNonconfig nc (resetMark xret))

/-- The report-all-tagged branch of with_defaults: declare wd on the root,
mark schema-default nodes, then tag every DEFAULT or MARK node. -/
def taggedMode (xret : Cxobj) : Cxobj :=
  applyAddDefaultTag (applyFlagDefault (xmlns_set_wd xret))

/-- with_defaults of backend_get.c: find the with-defaults element in the
request; no element means no work and success.  With an element, a
missing body (xml_find_value(xfind, "body") returning null) drops to the
done label with retval still -1: failure.  A known mode applies its
branch; any other body falls through every strcmp to the ok label with
the tree untouched.  The external config classification used by the
explicit branch is a parameter; none models failure. -/
def with_defaults (nc : Cxobj → Bool) (xe : Cxobj) (xret : Cxobj) :
    Option Cxobj :=
  match xml_find xe "with-defaults" with
  | none => some xret
  | some xfind =>
    match xml_body xfind with
    | none => none
    | some mode =>
      if mode = "explicit" then some (explicitMode nc xret)
      else if mode = "trim" then some (trimMode xret)
      else if mode = "report-all-tagged" then some (taggedMode xret)
      else if mode = "report-all" then some xret
      else some xret

/-- How get_common reacts to the with-defaults step: a failing
with_defaults takes the goto done path with retval -1, an internal error
that aborts the request without writing any rpc-error into cbret; on
success the pipeline continues with the tree. -/
inductive WdStep where
  | internalError
  | proceed (t : Cxobj)

/-- Lines 977-978 of backend_get.c:
if (with_defaults(xe, xret) < 0) goto done. -/
def get_common_wd (nc : Cxobj → Bool) (xe : Cxobj) (xret : Cxobj) :
    WdStep :=
  match with_defaults nc xe xret with
  | none => .internalError
  | some t => .proceed t

mutual
/-- Set the MARK flag on the node at the given path (one iteration of the
xml_flag_set loop of filter_xpath_again). -/
def markPath : Cxobj → Path → Cxobj
  | .mk n p t v u _ d s cs, [] => .mk n p t v u true d s cs
  | .mk n p t v u m d s cs, i :: q => .mk n p t v u m d s (markPathL cs i q)

/-- markPath on a child list, walking to the i-th child. -/
def markPathL : List Cxobj → Nat → Path → List Cxobj
  | [], _, _ => []
  | c :: cs, 0, q => markPath c q :: cs
  | c :: cs, Nat.succ i, q => c :: markPathL cs i q
end

/-- The marking loop of filter_xpath_again: set MARK on every node of the
xpath lookup result. -/
def markPaths (t : Cxobj) (ps : List Path) : Cxobj :=
  ps.foldl markPath t

mutual
/-- A node is marked or has a marked descendant. -/
def hasMarked : Cxobj → Bool
  | .mk _ _ _ _ _ m _ _ cs => m || hasMarkedL cs

/-- hasMarked over a child list. -/
def hasMarkedL : List Cxobj → Bool
  | [] => false
  | c :: cs => hasMarked c || hasMarkedL cs
end

mutual
/-- Modelled from the spec (4.E prune_unmarked; xml_tree_prune_flagged_sub
is not under src/): retain every node that is marked or has a marked
descendant, remove the rest; the root is kept. -/
def pruneUnmarked : Cxobj → Cxobj
  | .mk n p t v u m d s cs => .mk n p t v u m d s (pruneUnmarkedL cs)

/-- pruneUnmarked over a child list. -/
def pruneUnmarkedL : List Cxobj → List Cxobj
  | [] => []
  | c :: cs =>
    (if hasMarked c then [pruneUnmarked c] else []) ++ pruneUnmarkedL cs
end

/-- filter_xpath_again of backend_get.c: mark the nodes of the xpath
lookup result, prune everything that is neither marked nor above a marked
node unless the root itself is marked, then reset the MARK flag across
the tree. -/
def filter_xpath_again (xret : Cxobj) (xvec : List Path) : Cxobj :=
  let t1 := markPaths xret xvec
  let t2 := if !t1.mark then pruneUnmarked t1 else t1
  resetMark t2

mutual
/-- Every node of the subtree, the root included, satisfies the
predicate. -/
def allNodes (pr : Cxobj → Bool) (x : Cxobj) : Bool :=
  match x with
  | .mk _ _ _ _ _ _ _ _ cs => pr x && allNodesL pr cs

/-- allNodes over a child list. -/
def allNodesL (pr : Cxobj → Bool) : List Cxobj → Bool
  | [] => true
  | c :: cs => allNodes pr c && allNodesL pr cs
end

/-- The predicate construction of get_list_pagination (the cprintf
sequence at backend_get.c lines 671-687): start from the xpath, or / when
there is none; when offset is nonzero append an opening
[offset <= position() and, when limit is also nonzero, an upper bound
and position() < limit+offset with 32-bit addition; when only limit is
nonzero append [position() < limit]. -/
def pagination_xpath (xpath : Option String) (offset limit : Nat) :
    String :=
  let base :=
    match xpath with
    | some s => s
    | none => "/"
  if offset ≠ 0 then
    base ++ "[" ++ toString offset ++ " <= position()" ++
      (if limit ≠ 0 then
        " and position() < " ++ toString ((limit + offset) % 2 ^ 32)
       else "") ++ "]"
  else if limit ≠ 0 then
    base ++ "[position() < " ++ toString limit ++ "]"
  else base

/-- Modelled from the spec: whether the positional predicate built by
pagination_xpath keeps the list entry at 0-based position p (position()
follows the system's 0-based indexing); a zero bound is absent from the
predicate and so imposes nothing. -/
def pagination_keep (offset limit p : Nat) : Bool :=
  (decide (offset = 0) || decide (offset ≤ p)) &&
    (decide (limit = 0) || decide (p < offset + limit))

/-- Modelled from the spec: the datastore read with the rewritten path
(xmldb_get0 is not under src/) yields, of the entries matching the
original xpath in document order, those the positional predicate keeps. -/
def pagination_go {α : Type} (offset limit : Nat) :
    Nat → List α → List α
  | _, [] => []
  | p, e :: es =>
    (if pagination_keep offset limit p then [e] else []) ++
      pagination_go offset limit (p + 1) es

/-- The entries the paginated datastore read returns. -/
def pagination_filter {α : Type} (entries : List α)
    (offset limit : Nat) : List α :=
  pagination_go offset limit 0 entries

/-- yang keyword classification of the pagination target. -/
inductive Ykeyword where
  | ylist
  | yleafList
  | yother
deriving DecidableEq, Repr

/-- The schema node the pagination target xpath resolves to: its keyword
and whether yang_config_ancestor reports it (and all its ancestors) as
config true. -/
structure Ylist where
  keyword : Ykeyword
  configList : Bool
deriving DecidableEq, Repr

/-- The content class of a get request (netconf_content). -/
inductive NContent where
  | config
  | nonconfig
  | all
deriving DecidableEq, Repr

/-- What the pagination branch does: an rpc-error reply with the given
error-tag and no further work, or the main path, recording whether the
datastore is read (the CONTENT_CONFIG/CONTENT_ALL switch arm) and whether
the pagination state callback is invoked (the non-config-list arm). -/
inductive PagOutcome where
  | rpcError (etag : String)
  | run (readsDb : Bool) (callsPagCb : Bool)
deriving DecidableEq, Repr

/-- The precondition checks and dispatch of get_list_pagination
(backend_get.c lines 597-631 and the content switch): an unresolved
target, a target that is neither list nor leaf-list, a config list
requested with content nonconfig, and a state list requested with content
config each produce an rpc-error with error-tag invalid-value (the
netconf_invalid_value reply of the error taxonomy) and reach neither the
datastore read nor the pagination callback. -/
def get_list_pagination (ylist : Option Ylist) (content : NContent) :
    PagOutcome :=
  match ylist with
  | none => .rpcError "invalid-value"
  | some y =>
    if y.keyword ≠ Ykeyword.ylist ∧ y.keyword ≠ Ykeyword.yleafList then
      .rpcError "invalid-value"
    else if y.configList = true ∧ content = NContent.nonconfig then
      .rpcError "invalid-value"
    else if y.configList = false ∧ content = NContent.config then
      .rpcError "invalid-value"
    else
      .run (content ≠ NContent.nonconfig) (y.configList = false)

/-- Modelled from the spec: 1-based XPath positions are translated to the
internal 0-based form by the parser (clixon_xpath_parse.y is not under
src/).  A numeric predicate written with position n carries n - 1; per the
equivalence stated in the xp_eval_predicate documentation (a location path
para with numeric predicate 3 is equivalent to one with position()=3),
this is the internal form of the claim's position()=3 test. -/
def parse_position (n : ℚ) : XNum := some (n - 1)

mutual
/-- All element descendants of a node (strictly below it) in document
order, as paths extending p: the claim's reading of all elements of the
tree, written independently of the evaluator for comparison. -/
def allElemDescPaths : Cxobj → Path → List Path
  | .mk _ _ _ _ _ _ _ _ cs, p => allElemDescPathsL cs p 0

/-- allElemDescPaths over a child list starting at index i. -/
def allElemDescPathsL : List Cxobj → Path → Nat → List Path
  | [], _, _ => []
  | c :: cs, p, i =>
    (if c.ntype = NType.elmnt then
      (p ++ [i]) :: allElemDescPaths c (p ++ [i])
     else []) ++ allElemDescPathsL cs p (i + 1)
end

/-- An element whose body equals its schema node's default value: the
condition the trim claim says no element of the result satisfies. -/
def elemBodyIsDefault (c : Cxobj) : Bool :=
  decide (c.ntype = NType.elmnt) && flag_default_value c

/-- The body value carried by a child list: the value of its first
body-type child (so that xml_body x = firstBodyValue x.children). -/
def firstBodyValue (cs : List Cxobj) : Option String :=
  match cs.find? (fun c => c.ntype = NType.body) with
  | some c => c.value
  | none => none

/-- An element node with the given name and children and nothing else. -/
def elemN (n : String) (cs : List Cxobj) : Cxobj :=
  .mk n none .elmnt none none false false none cs

/-- A body (text) node with the given value. -/
def bodyN (s : String) : Cxobj :=
  .mk "body" none .body (some s) none false false none []

/-- A leaf element with a body value and a schema default. -/
def leafB (n v : String) (d : Option String) : Cxobj :=
  .mk n none .elmnt none none false false d [bodyN v]

/-- Example document with root top and two element children a and b. -/
def doc2 : Cxobj := elemN "top" [elemN "a" [], elemN "b" []]

/-- Example document with root top and four element children. -/
def doc4 : Cxobj :=
  elemN "top" [elemN "a" [], elemN "b" [], elemN "c" [], elemN "d" []]

/-- Example reply tree of the trim scenario: a leaf x with body 5 whose
schema default is 5, and a leaf y with body 7 whose schema default is
5. -/
def trimDoc : Cxobj :=
  elemN "data" [leafB "x" "5" (some "5"), leafB "y" "7" (some "5")]

/-- Example request carrying a with-defaults element with body trim. -/
def reqTrim : Cxobj := elemN "get" [elemN "with-defaults" [bodyN "trim"]]

/-- Example request carrying a with-defaults element with no body. -/
def reqNoBody : Cxobj := elemN "get" [elemN "with-defaults" []]

/-- Example request carrying a with-defaults element with an unknown
mode. -/
def reqUnknown : Cxobj :=
  elemN "get" [elemN "with-defaults" [bodyN "everything"]]

/-- Example request with no with-defaults element. -/
def reqPlain : Cxobj := elemN "get" [elemN "filter" []]

/-- The keep decision of the predicate loop for the candidate at 0-based
position ix.1: the predicate expression is evaluated with the candidate
as the single-element context; a number result keeps the candidate iff
its (int) cast, truncating toward zero, equals the position; any other
result is coerced to boolean. -/
def predKeep (doc : Cxobj) (xc : XpCtx) (e : XpTree) (nsc : Option Nsc)
    (ix : Nat × Path) : Bool :=
  let xrc := xp_eval doc
    { mkCtx XType.nodeset xc.initial [ix.2] with node := ix.2 } e nsc
  if xrc.ctype = XType.number then
    match xrc.num with
    | some q => decide (ratTrunc q = (ix.1 : Int))
    | none => false
  else ctx2boolean xrc

/-- The CONTENT_NONCONFIG arm of get_common (backend_get.c lines
1003-1012): mark non-config data, prune everything that is neither marked
nor above a marked node, then reset the MARK flag. -/
def nonconfig_branch (nc : Cxobj → Bool) (t : Cxobj) : Cxobj :=
  resetMark (pruneUnmarked (applyMarkNonconfig nc t))

@[simp] theorem mark_mk (n : String) (p : Option String) (t : NType)
    (v u : Option String) (m d : Bool) (s : Option String)
    (cs : List Cxobj) : (Cxobj.mk n p t v u m d s cs).mark = m := rfl

@[simp] theorem ntype_mk (n : String) (p : Option String) (t : NType)
    (v u : Option String) (m d : Bool) (s : Option String)
    (cs : List Cxobj) : (Cxobj.mk n p t v u m d s cs).ntype = t := rfl

@[simp] theorem children_mk (n : String) (p : Option String) (t : NType)
    (v u : Option String) (m d : Bool) (s : Option String)
    (cs : List Cxobj) : (Cxobj.mk n p t v u m d s cs).children = cs := rfl

@[simp] theorem value_mk (n : String) (p : Option String) (t : NType)
    (v u : Option String) (m d : Bool) (s : Option String)
    (cs : List Cxobj) : (Cxobj.mk n p t v u m d s cs).value = v := rfl

@[simp] theorem dflt_mk (n : String) (p : Option String) (t : NType)
    (v u : Option String) (m d : Bool) (s : Option String)
    (cs : List Cxobj) : (Cxobj.mk n p t v u m d s cs).dflt = d := rfl

@[simp] theorem specDefault_mk (n : String) (p : Option String) (t : NType)
    (v u : Option String) (m d : Bool) (s : Option String)
    (cs : List Cxobj) : (Cxobj.mk n p t v u m d s cs).specDefault = s := rfl

@[simp] theorem xml_body_mk (n : String) (p : Option String) (t : NType)
    (v u : Option String) (m d : Bool) (s : Option String)
    (cs : List Cxobj) : xml_body (Cxobj.mk n p t v u m d s cs) =
      firstBodyValue cs := rfl

/-- C9 counterexample: the node test text() matches a concrete element
node: nodetest_eval does not inspect the node kind, contradicting the
claim that text() matches only text nodes. -/
theorem c9_text_matches_element_counterexample :
    nodetest_eval (Cxobj.mk "a" none NType.elmnt none none false false none [])
      (Nodetest.nodeFn "text") none = true ∧
    (Cxobj.mk "a" none NType.elmnt none none false false none []).ntype ≠
      NType.body :=
  ⟨rfl, by decide⟩

/-- C9 amended: node() matches any node (in particular any element), and
text() also matches any node whatsoever, elements included; the node kind
is never inspected by nodetest_eval. -/
theorem c9_node_text_match_any_node (x : Cxobj) (nsc : Option Nsc) :
    nodetest_eval x (Nodetest.nodeFn "node") nsc = true ∧
    nodetest_eval x (Nodetest.nodeFn "text") nsc = true :=
  ⟨rfl, rfl⟩

/-- C2: the node test NodeName(px, lx) against an element x.  The
wildcard always matches.  Otherwise the local names must agree, and then:
in strict mode (namespace context supplied) the test matches iff the URI
that x's prefix resolves to in the document equals the URI px resolves to
in the context, with a match also when both resolve to nothing; in
lenient mode (no context) it matches iff the raw prefixes agree, both
absent included.  Last conjunct: in strict mode an element bound to URI u
matches the test whenever the context maps the test's prefix to u,
regardless of the document prefix (which is not consulted). -/
theorem c2_nodetest_namespace (x : Cxobj) (px : Option String) (lx : String) :
    (∀ nsc : Nsc, nodetest_eval_node x px lx (some nsc) = true ↔
      (lx = "*" ∨ (x.name = lx ∧
        ((∃ u : String, x.nsuri = some u ∧ xml_nsctx_get nsc px = some u) ∨
          (x.nsuri = none ∧ xml_nsctx_get nsc px = none))))) ∧
    (nodetest_eval_node x px lx none = true ↔
      (lx = "*" ∨ (x.name = lx ∧ x.pfx = px))) ∧
    (∀ (nsc : Nsc) (u : String), x.name = lx → x.nsuri = some u →
      xml_nsctx_get nsc px = some u →
      nodetest_eval_node x px lx (some nsc) = true) := by
  refine ⟨?_, ?_, ?_⟩
  · intro nsc
    by_cases hstar : lx = "*"
    · simp [nodetest_eval_node, hstar]
    · by_cases hname : x.name = lx
      · rcases hu : x.nsuri with _ | u <;>
          rcases hq : xml_nsctx_get nsc px with _ | w <;>
            simp [nodetest_eval_node, hstar, hname, hu, hq, eq_comm]
      · simp [nodetest_eval_node, hstar, hname]
  · by_cases hstar : lx = "*"
    · simp [nodetest_eval_node, hstar]
    · by_cases hname : x.name = lx
      · rcases hp : x.pfx with _ | p1 <;>
          rcases hx : px with _ | p2 <;>
            simp [nodetest_eval_node, hstar, hname, hp, hx]
      · simp [nodetest_eval_node, hstar, hname]
  · intro nsc u hname hu hq
    by_cases hstar : lx = "*"
    · simp [nodetest_eval_node, hstar]
    · simp [nodetest_eval_node, hstar, hname, hu, hq]

/-- C2 witness: an element with document prefix pdoc bound to URI U
matches q:ifname under a context mapping q to U. -/
theorem c2_nodetest_namespace_witness :
    nodetest_eval_node
      (Cxobj.mk "ifname" (some "pdoc") NType.elmnt none (some "U")
        false false none [])
      (some "q") "ifname" (some [(some "q", "U")]) = true :=
  (c2_nodetest_namespace _ (some "q") "ifname").2.2 [(some "q", "U")] "U"
    rfl rfl rfl

/-- C7: the pagination preconditions.  A target xpath that resolves to no
schema node, or to one that is neither list nor leaf-list, a config list
requested with content nonconfig, and a state list requested with content
config all yield the rpc-error reply with error-tag invalid-value; the
run outcome carrying the datastore read and pagination callback is never
reached. -/
theorem c7_pagination_preconditions :
    (∀ content, get_list_pagination none content =
      PagOutcome.rpcError "invalid-value") ∧
    (∀ (y : Ylist) content, y.keyword = Ykeyword.yother →
      get_list_pagination (some y) content =
        PagOutcome.rpcError "invalid-value") ∧
    (∀ y : Ylist, y.configList = true →
      get_list_pagination (some y) NContent.nonconfig =
        PagOutcome.rpcError "invalid-value") ∧
    (∀ y : Ylist, y.configList = false →
      get_list_pagination (some y) NContent.config =
        PagOutcome.rpcError "invalid-value") := by
  refine ⟨fun content => rfl, ?_, ?_, ?_⟩
  · intro y content h
    obtain ⟨k, c⟩ := y
    cases h
    cases content <;> cases c <;> rfl
  · intro y h
    obtain ⟨k, c⟩ := y
    cases h
    cases k <;> rfl
  · intro y h
    obtain ⟨k, c⟩ := y
    cases h
    cases k <;> rfl

/-- C7 witness: a config list with content nonconfig, a state list with
content config, and a non-list target each produce invalid-value. -/
theorem c7_pagination_preconditions_witness :
    get_list_pagination (some ⟨Ykeyword.ylist, true⟩) NContent.nonconfig =
      PagOutcome.rpcError "invalid-value" ∧
    get_list_pagination (some ⟨Ykeyword.ylist, false⟩) NContent.config =
      PagOutcome.rpcError "invalid-value" ∧
    get_list_pagination (some ⟨Ykeyword.yother, false⟩) NContent.all =
      PagOutcome.rpcError "invalid-value" :=
  ⟨c7_pagination_preconditions.2.2.1 ⟨Ykeyword.ylist, true⟩ rfl,
   c7_pagination_preconditions.2.2.2 ⟨Ykeyword.ylist, false⟩ rfl,
   c7_pagination_preconditions.2.1 ⟨Ykeyword.yother, false⟩ NContent.all rfl⟩

/-- C10: the with-defaults step of get_common.  No with-defaults element
means the tree is untouched and the step succeeds; an element whose body
is any string other than the four modes falls through every comparison,
leaving the tree untouched and succeeding; an element with no body at all
makes with_defaults fail, which get_common turns into an internal abort
of the request rather than an rpc-error reply. -/
theorem c10_with_defaults_step :
    (∀ (nc : Cxobj → Bool) (xe t : Cxobj),
      xml_find xe "with-defaults" = none → with_defaults nc xe t = some t) ∧
    (∀ (nc : Cxobj → Bool) (xe t xf : Cxobj) (mode : String),
      xml_find xe "with-defaults" = some xf → xml_body xf = some mode →
      mode ≠ "report-all" → mode ≠ "explicit" → mode ≠ "trim" →
      mode ≠ "report-all-tagged" → with_defaults nc xe t = some t) ∧
    (∀ (nc : Cxobj → Bool) (xe t xf : Cxobj),
      xml_find xe "with-defaults" = some xf → xml_body xf = none →
      with_defaults nc xe t = none ∧
        get_common_wd nc xe t = WdStep.internalError) := by
  refine ⟨?_, ?_, ?_⟩
  · intro nc xe t h
    simp [with_defaults, h]
  · intro nc xe t xf mode h1 h2 h3 h4 h5 h6
    simp [with_defaults, h1, h2, h3, h4, h5, h6]
  · intro nc xe t xf h1 h2
    refine ⟨?_, ?_⟩ <;> simp [with_defaults, get_common_wd, h1, h2]

/-- C10 witness: a request with no with-defaults element, one with mode
everything, and one with a bodyless with-defaults element. -/
theorem c10_with_defaults_step_witness :
    with_defaults (fun _ => false) reqPlain trimDoc = some trimDoc ∧
    with_defaults (fun _ => false) reqUnknown trimDoc = some trimDoc ∧
    (with_defaults (fun _ => false) reqNoBody trimDoc = none ∧
      get_common_wd (fun _ => false) reqNoBody trimDoc =
        WdStep.internalError) :=
  ⟨c10_with_defaults_step.1 _ reqPlain trimDoc rfl,
   c10_with_defaults_step.2.1 _ reqUnknown trimDoc
     (elemN "with-defaults" [bodyN "everything"]) "everything" rfl rfl
     (by decide) (by decide) (by decide) (by decide),
   c10_with_defaults_step.2.2 _ reqNoBody trimDoc
     (elemN "with-defaults" []) rfl rfl⟩

theorem pagination_go_all {α : Type} (es : List α) :
    ∀ p, pagination_go 0 0 p es = es := by
  induction es with
  | nil => intro p; rfl
  | cons e es ih => intro p; simp [pagination_go, pagination_keep, ih]

theorem pagination_go_limit1 {α : Type} (es : List α) :
    ∀ p, 0 < p → pagination_go 0 1 p es = [] := by
  induction es with
  | nil => intro p _; rfl
  | cons e es ih =>
    intro p hp
    simp [pagination_go, pagination_keep, Nat.not_lt.mpr hp,
      ih (p + 1) (by omega)]

/-- C6: the pagination predicate.  With offset and limit both zero the
xpath is unchanged and every entry is returned; with zero offset and a
nonzero limit only the limit bound is appended, and limit 1 keeps exactly
the first matching entry in document order; with a nonzero offset and
zero limit only the offset bound is appended. -/
theorem c6_pagination_predicate :
    (∀ s : String, pagination_xpath (some s) 0 0 = s) ∧
    (∀ (α : Type) (es : List α), pagination_filter es 0 0 = es) ∧
    (∀ (s : String) (l : Nat),
      pagination_xpath (some s) 0 (l + 1) =
        s ++ "[position() < " ++ toString (l + 1) ++ "]") ∧
    (∀ (α : Type) (es : List α), pagination_filter es 0 1 = es.take 1) ∧
    (∀ (s : String) (o : Nat),
      pagination_xpath (some s) (o + 1) 0 =
        s ++ "[" ++ toString (o + 1) ++ " <= position()]") := by
  refine ⟨?_, ?_, ?_, ?_, ?_⟩
  · intro s; rfl
  · intro α es; exact pagination_go_all es 0
  · intro s l; simp [pagination_xpath]
  · intro α es
    cases es with
    | nil => rfl
    | cons e es =>
      simp [pagination_filter, pagination_go, pagination_keep,
        pagination_go_limit1 es 1 (by omega)]
  · intro s o
    have h : (" <= position()" : String) ++ "]" = " <= position()]" := rfl
    simp [pagination_xpath, String.append_assoc, h]

/-- C8: the numeric operators.  Both operands are coerced to numbers; if
either coercion yields NaN the result is NaN; otherwise ADD, SUB, MULT
and DIV are computed on the doubles without truncation, while MOD is the
C integer remainder of the two operands cast to int (truncation toward
zero).  The result context is typed number.  The DIV and MOD conjuncts
carry nonzero-divisor guards because the model does not reproduce the C
behaviour at a zero divisor (IEEE infinity, resp. undefined). -/
theorem c8_numop_semantics (doc : Cxobj) (xc1 xc2 : XpCtx) :
    ((ctx2number doc xc1 = none ∨ ctx2number doc xc2 = none) →
      ∀ op, (xp_numop doc xc1 xc2 op).num = none) ∧
    (∀ op, (xp_numop doc xc1 xc2 op).ctype = XType.number) ∧
    (∀ a b : ℚ, ctx2number doc xc1 = some a → ctx2number doc xc2 = some b →
      (xp_numop doc xc1 xc2 XpOp.add).num = some (a + b) ∧
      (xp_numop doc xc1 xc2 XpOp.sub).num = some (a - b) ∧
      (xp_numop doc xc1 xc2 XpOp.mult).num = some (a * b) ∧
      (b ≠ 0 → (xp_numop doc xc1 xc2 XpOp.div).num = some (a / b)) ∧
      (ratTrunc b ≠ 0 → (xp_numop doc xc1 xc2 XpOp.mod).num =
        some (((ratTrunc a).tmod (ratTrunc b) : Int) : ℚ))) := by
  refine ⟨?_, ?_, ?_⟩
  · intro h op
    rcases h with h | h
    · simp [xp_numop, h, mkCtx]
    · simp only [xp_numop, h, mkCtx]
      cases ctx2number doc xc1 <;> simp
  · intro op; rfl
  · intro a b h1 h2
    refine ⟨?_, ?_, ?_, fun _ => ?_, fun _ => ?_⟩ <;>
      simp [xp_numop, h1, h2, mkCtx]

/-- C8 witness: NaN plus 7 is NaN; 7 div 2 is the untruncated 7/2; 7 mod
2 is the integer remainder 1. -/
theorem c8_numop_semantics_witness :
    (xp_numop doc2 { mkCtx XType.number [] [] with num := none }
      { mkCtx XType.number [] [] with num := some 7 } XpOp.add).num = none ∧
    (xp_numop doc2 { mkCtx XType.number [] [] with num := some 7 }
      { mkCtx XType.number [] [] with num := some 2 } XpOp.div).num =
        some (7 / 2) ∧
    (xp_numop doc2 { mkCtx XType.number [] [] with num := some 7 }
      { mkCtx XType.number [] [] with num := some 2 } XpOp.mod).num =
        some 1 := by
  refine ⟨?_, ?_, ?_⟩
  · exact (c8_numop_semantics doc2
      { mkCtx XType.number [] [] with num := none }
      { mkCtx XType.number [] [] with num := some 7 }).1 (Or.inl rfl) XpOp.add
  · exact ((c8_numop_semantics doc2
      { mkCtx XType.number [] [] with num := some 7 }
      { mkCtx XType.number [] [] with num := some 2 }).2.2 7 2 rfl rfl).2.2.2.1
      (by norm_num)
  · have h := ((c8_numop_semantics doc2
      { mkCtx XType.number [] [] with num := some 7 }
      { mkCtx XType.number [] [] with num := some 2 }).2.2 7 2 rfl rfl).2.2.2.2
      (by decide)
    rw [h]
    decide

mutual
theorem resetMark_unmarked : ∀ x : Cxobj,
    allNodes (fun c => !c.mark) (resetMark x) = true
  | .mk n p t v u m d s cs => by
    simp [resetMark, allNodes, resetMarkL_unmarked cs]

theorem resetMarkL_unmarked : ∀ cs : List Cxobj,
    allNodesL (fun c => !c.mark) (resetMarkL cs) = true
  | [] => rfl
  | c :: cs => by
    simp [resetMarkL, allNodesL, resetMark_unmarked c, resetMarkL_unmarked cs]
end

/-- C3: after filter_xpath_again, whatever tree and xpath lookup result
it was given, and after the CONTENT_NONCONFIG branch of get_common, every
node of the resulting tree has the MARK flag clear: both paths end by
resetting MARK across the tree, so MARK is scratch state that is zero in
every tree a reply is serialised from. -/
theorem c3_no_mark_after_filter :
    (∀ (xret : Cxobj) (xvec : List Path),
      allNodes (fun c => !c.mark) (filter_xpath_again xret xvec) = true) ∧
    (∀ (nc : Cxobj → Bool) (t : Cxobj),
      allNodes (fun c => !c.mark) (nonconfig_branch nc t) = true) := by
  constructor
  · intro xret xvec
    simp only [filter_xpath_again]
    exact resetMark_unmarked _
  · intro nc t
    exact resetMark_unmarked _

theorem climbRoot_eq_nil (p : Path) : climbRoot p = [] := by
  match p with
  | [] => simp [climbRoot]
  | a :: q =>
    rw [climbRoot]
    exact climbRoot_eq_nil ((a :: q).dropLast)
termination_by p.length
decreasing_by simp [List.length_dropLast]

mutual
theorem ntr_star (nsc : Option Nsc) : ∀ (t : Cxobj) (p : Path),
    nodetest_recursive (Nodetest.node none "*") nsc t p = allElemDescPaths t p
  | .mk n pf ty v u m d s cs, p => by
    simp [nodetest_recursive, allElemDescPaths, ntr_starL nsc cs p 0]

theorem ntr_starL (nsc : Option Nsc) : ∀ (cs : List Cxobj) (p : Path) (i : Nat),
    ntrChildren (Nodetest.node none "*") nsc cs p i = allElemDescPathsL cs p i
  | [], _, _ => rfl
  | c :: cs, p, i => by
    simp [ntrChildren, allElemDescPathsL, nodetest_eval, nodetest_eval_node,
      ntr_star nsc c (p ++ [i]), ntr_starL nsc cs p (i + 1)]
end

/-- C4 counterexample: on the concrete document top with element children
a and b, the bare absolute path / evaluates to the two children, not to
the singleton root node-set the claim promises (the root is the node at
the empty path). -/
theorem c4_root_counterexample :
    xpath_eval_top doc2 (XpTree.abspath false none) none = [[0], [1]] ∧
    xpath_eval_top doc2 (XpTree.abspath false none) none ≠ [[]] ∧
    subtreeAt doc2 [] = some doc2 := by
  have h : xpath_eval_top doc2 (XpTree.abspath false none) none =
      [[0], [1]] := by
    simp +decide [xpath_eval_top, xp_eval, abspath_pre, climbRoot, mkCtx,
      childElemPaths, nodeAt, subtreeAt, doc2, elemN, List.enum, List.enumFrom]
  exact ⟨h, by rw [h]; decide, rfl⟩

/-- C4 amended: the absolute-path pre-action does reposition the context
node to its root ancestor with the node-set the singleton root of size 1
before the tail is evaluated, and the // prefix additionally sets the
descendant flag; but the bare XPath / yields the element children of the
root rather than the root itself, and the XPath //* yields all element
descendants strictly below the root. -/
theorem c4_abspath_amended :
    (∀ (xc : XpCtx) (dos : Bool),
      (abspath_pre xc dos).node = [] ∧
      (abspath_pre xc dos).nodeset = [[]] ∧
      (abspath_pre xc dos).nodeset.length = 1) ∧
    (∀ xc : XpCtx, (abspath_pre xc true).descendant = true) ∧
    (∀ (doc : Cxobj) (xc : XpCtx) (dos : Bool) (t0 : XpTree) (nsc : Option Nsc),
      xp_eval doc xc (XpTree.abspath dos (some t0)) nsc =
        xp_eval doc (abspath_pre xc dos) t0 nsc) ∧
    (∀ (doc : Cxobj) (nsc : Option Nsc),
      xpath_eval_top doc (XpTree.abspath false none) nsc =
        childElemPaths doc []) ∧
    (∀ (doc : Cxobj) (nsc : Option Nsc),
      xpath_eval_top doc
        (XpTree.abspath true (some (XpTree.step Axis.child
          (Nodetest.node none "*") none))) nsc = allElemDescPaths doc []) := by
  refine ⟨?_, ?_, ?_, ?_, ?_⟩
  · intro xc dos
    refine ⟨climbRoot_eq_nil xc.node, ?_, ?_⟩ <;>
      simp [abspath_pre, climbRoot_eq_nil]
  · intro xc; rfl
  · intro doc xc dos t0 nsc
    simp [xp_eval]
  · intro doc nsc
    simp [xpath_eval_top, xp_eval, abspath_pre, mkCtx, climbRoot_eq_nil]
  · intro doc nsc
    simp [xpath_eval_top, xp_eval, xp_eval_step, abspath_pre, mkCtx,
      climbRoot_eq_nil, ntr_star, nodeAt, subtreeAt]

theorem predLoop_enumFrom (doc : Cxobj) (xc : XpCtx) (e : XpTree)
    (nsc : Option Nsc) (l : List Path) :
    ∀ i, predLoop doc xc e nsc i l =
      ((l.enumFrom i).filter (predKeep doc xc e nsc)).map Prod.snd := by
  induction l with
  | nil => intro i; simp [predLoop]
  | cons x xs ih =>
    intro i
    rw [predLoop]
    change (if predKeep doc xc e nsc (i, x) then [x] else []) ++
      predLoop doc xc e nsc (i + 1) xs = _
    rw [ih (i + 1)]
    by_cases hk : predKeep doc xc e nsc (i, x) = true
    · simp [List.enumFrom, List.filter_cons, hk]
    · simp [List.enumFrom, List.filter_cons, hk]

/-- C1 counterexample: the numeric predicate 1 div 2 evaluates, on the
first candidate's single-element context, to the number 1/2, which equals
no candidate position; yet the first element child is kept, because
xp_eval_predicate compares the (int) cast of the number with the 0-based
position, so a non-integer result selects the candidate at its
truncation instead of selecting none. -/
theorem c1_number_truncation_counterexample :
    xpath_eval_top doc2
      (XpTree.step Axis.child (Nodetest.node none "*")
        (some (XpTree.pred none (some (XpTree.addE XpOp.div
          (XpTree.primeNr (some 1)) (XpTree.primeNr (some 2)))))))
      none = [[0]] ∧
    (xp_eval doc2 { mkCtx XType.nodeset [] [[0]] with node := [0] }
      (XpTree.addE XpOp.div (XpTree.primeNr (some 1))
        (XpTree.primeNr (some 2))) none).ctype = XType.number ∧
    (xp_eval doc2 { mkCtx XType.nodeset [] [[0]] with node := [0] }
      (XpTree.addE XpOp.div (XpTree.primeNr (some 1))
        (XpTree.primeNr (some 2))) none).num = some (1 / 2) ∧
    ((1 : ℚ) / 2 ≠ 0) := by
  refine ⟨?_, ?_, ?_, by norm_num⟩
  · simp +decide [xpath_eval_top, xp_eval, xp_eval_step, xp_eval_predicate,
      predLoop, mkCtx, childElemPaths, nodeAt, subtreeAt, doc2, elemN,
      List.enum, List.enumFrom, nodetest_eval, nodetest_eval_node,
      xp_numop, ctx2number, ratTrunc, ctx2boolean]
  · simp [xp_eval, xp_numop, ctx2number, mkCtx]
  · simp [xp_eval, xp_numop, ctx2number, mkCtx]

/-- C1 amended: predicate evaluation.  For every predicate, the kept
node-set is exactly the candidates (the node-set left by the earlier
predicates), paired with their 0-based source positions, filtered by the
rule of the code: the predicate expression is evaluated with the
candidate as the single-element context; a number result keeps the
candidate iff its (int) cast, truncating toward zero, equals the
position; any other result is coerced to boolean (predKeep).  On the
concrete four-child document, the step child::* with the numeric
predicate carrying position 3 (translated on parse to the internal
0-based 2) returns exactly the third element child. -/
theorem c1_predicate_rule :
    (∀ (doc : Cxobj) (xc : XpCtx) (c0 : Option XpTree) (e : XpTree)
        (nsc : Option Nsc),
      (xp_eval_predicate doc xc c0 (some e) nsc).nodeset =
        ((xp_eval_predicate doc xc c0 none nsc).nodeset.enum.filter
          (predKeep doc xc e nsc)).map Prod.snd) ∧
    xpath_eval_top doc4
      (XpTree.step Axis.child (Nodetest.node none "*")
        (some (XpTree.pred none (some (XpTree.primeNr (parse_position 3))))))
      none = [[2]] := by
  constructor
  · intro doc xc c0 e nsc
    cases c0 with
    | none => simp [xp_eval_predicate, mkCtx, predLoop_enumFrom, List.enum]
    | some t0 => simp [xp_eval_predicate, mkCtx, predLoop_enumFrom, List.enum]
  · simp +decide [xpath_eval_top, xp_eval, xp_eval_step, xp_eval_predicate,
      predLoop, mkCtx, childElemPaths, nodeAt, subtreeAt, doc4, elemN,
      List.enum, List.enumFrom, nodetest_eval, nodetest_eval_node,
      parse_position, ratTrunc, ctx2boolean]
    norm_num

theorem fbv_cons_body (c : Cxobj) (cs : List Cxobj)
    (h : c.ntype = NType.body) :
    firstBodyValue (c :: cs) = c.value := by
  simp [firstBodyValue, List.find?_cons_of_pos, h]

theorem fbv_cons_skip (c : Cxobj) (cs : List Cxobj)
    (h : c.ntype ≠ NType.body) :
    firstBodyValue (c :: cs) = firstBodyValue cs := by
  simp [firstBodyValue, List.find?_cons_of_neg, h]

mutual
theorem unmarked_pruneFlags (test : Cxobj → Bool) : ∀ x : Cxobj,
    allNodes (fun c => !c.mark) x = true →
    allNodes (fun c => !c.mark) (pruneFlags test x) = true
  | .mk n p t v u m d s cs => by
    intro h
    simp [allNodes, pruneFlags] at h ⊢
    exact ⟨h.1, unmarked_pruneFlagsL test cs h.2⟩

theorem unmarked_pruneFlagsL (test : Cxobj → Bool) : ∀ cs : List Cxobj,
    allNodesL (fun c => !c.mark) cs = true →
    allNodesL (fun c => !c.mark) (pruneFlagsL test cs) = true
  | [] => fun h => h
  | c :: cs => by
    intro h
    simp [allNodesL] at h
    by_cases ht : test c = true
    · simp [pruneFlagsL, ht]
      exact unmarked_pruneFlagsL test cs h.2
    · simp [pruneFlagsL, ht, allNodesL]
      exact ⟨unmarked_pruneFlags test c h.1, unmarked_pruneFlagsL test cs h.2⟩
end

theorem fbv_prune_apply : ∀ cs : List Cxobj,
    allNodesL (fun c => !c.mark) cs = true →
    firstBodyValue (pruneFlagsL (fun c => c.mark) (applyFlagDefaultL cs)) =
      firstBodyValue cs
  | [] => fun _ => rfl
  | (Cxobj.mk n p t v u m d s csc) :: cs => by
    intro h
    simp [allNodesL, allNodes] at h
    obtain ⟨⟨hm, hsub⟩, hrest⟩ := h
    subst hm
    rw [applyFlagDefaultL, pruneFlagsL]
    by_cases ht : t = NType.body
    · subst ht
      simp [applyFlagDefault, pruneFlags, fbv_cons_body]
    · by_cases hf : (if t = NType.elmnt
          then flag_default_value (Cxobj.mk n p t v u false d s csc)
          else false) = true
      · simp only [applyFlagDefault, mark_mk, hf, if_true]
        rw [fbv_cons_skip _ _ (by simp [ht])]
        exact fbv_prune_apply cs hrest
      · simp only [applyFlagDefault, mark_mk, hf, if_false, Bool.false_eq_true,
          List.singleton_append]
        rw [fbv_cons_skip _ _ (by simp [pruneFlags, ht]),
          fbv_cons_skip _ _ (by simp [ht])]
        exact fbv_prune_apply cs hrest

theorem fdv_prune (x : Cxobj)
    (h : allNodes (fun c => !c.mark) x = true) :
    flag_default_value (pruneFlags (fun c => c.mark) (applyFlagDefault x)) =
      flag_default_value x := by
  obtain ⟨n, p, t, v, u, m, d, s, cs⟩ := x
  simp [allNodes] at h
  simp [applyFlagDefault, pruneFlags, flag_default_value, xml_body_mk,
    fbv_prune_apply cs h.2]

mutual
theorem trim_core : ∀ x : Cxobj,
    allNodes (fun c => !c.mark) x = true →
    allNodesL (fun c => !elemBodyIsDefault c)
      ((pruneFlags (fun c => c.mark) (applyFlagDefault x)).children) = true
  | .mk n p t v u m d s cs => fun h => by
    simp [allNodes] at h
    simp only [applyFlagDefault, pruneFlags, children_mk]
    exact trim_coreL cs h.2

theorem trim_coreL : ∀ cs : List Cxobj,
    allNodesL (fun c => !c.mark) cs = true →
    allNodesL (fun c => !elemBodyIsDefault c)
      (pruneFlagsL (fun c => c.mark) (applyFlagDefaultL cs)) = true
  | [] => fun _ => rfl
  | (Cxobj.mk n p t v u m d s csc) :: cs => fun h => by
    simp [allNodesL, allNodes] at h
    obtain ⟨⟨hm, hsub⟩, hrest⟩ := h
    subst hm
    rw [applyFlagDefaultL, pruneFlagsL]
    have h0 : allNodes (fun c => !c.mark)
        (Cxobj.mk n p t v u false d s csc) = true := by
      simp [allNodes, hsub]
    by_cases hf : (if t = NType.elmnt
        then flag_default_value (Cxobj.mk n p t v u false d s csc)
        else false) = true
    · simp only [applyFlagDefault, mark_mk, hf, if_true, List.nil_append]
      exact trim_coreL cs hrest
    · simp only [applyFlagDefault, pruneFlags, mark_mk, hf, if_false,
        Bool.false_eq_true, List.singleton_append]
      rw [allNodesL, allNodes]
      simp only [Bool.and_eq_true]
      refine ⟨⟨?_, ?_⟩, ?_⟩
      · by_cases ht : t = NType.elmnt
        · rw [if_pos ht] at hf
          simp only [Bool.not_eq_true] at hf
          subst ht
          have heq : flag_default_value (Cxobj.mk n p NType.elmnt v u false d s
              (pruneFlagsL (fun c => c.mark) (applyFlagDefaultL csc))) =
              flag_default_value (Cxobj.mk n p NType.elmnt v u false d s csc) := by
            simp [flag_default_value, fbv_prune_apply csc hsub]
          simp [elemBodyIsDefault, hf, heq]
        · simp [elemBodyIsDefault, ht]
      · simpa [children_mk] using trim_coreL csc hsub
      · exact trim_coreL cs hrest
end

/-- C5: with-defaults mode trim.  For every tree whose MARK scratch flags
are clear on entry (the spec's own invariant before a top-level
operation), no element below the reply root of the trimmed tree has a
body equal to its schema node's default value; and on the concrete
scenario, the leaf x with body 5 and default 5 is dropped while the leaf
y with body 7 and default 5 is retained. -/
theorem c5_trim_no_default_body :
    (∀ t : Cxobj, allNodes (fun c => !c.mark) t = true →
      allNodesL (fun c => !elemBodyIsDefault c) ((trimMode t).children) =
        true) ∧
    trimMode trimDoc = elemN "data" [leafB "y" "7" (some "5")] := by
  constructor
  · intro t h
    exact trim_core (pruneFlags (fun c => c.dflt) t)
      (unmarked_pruneFlags _ t h)
  · rfl

/-- C5 witness: the trim invariant evaluated on the concrete scenario
tree. -/
theorem c5_trim_no_default_body_witness :
    allNodesL (fun c => !elemBodyIsDefault c) ((trimMode trimDoc).children) =
      true :=
  c5_trim_no_default_body.1 trimDoc rfl

end Clixon
